import Mathlib
/-!
Verification of the Multi-Signal Causal Correlation Engine
(`script/multi_signal_correlator.py`).

The Python classes `ProcessTreeBuilder`, `ArgumentMatcher` and
`MultiSignalCorrelator` are embedded shallowly: mutating methods become
state-passing functions, dictionaries become insertion-ordered association
lists, Python floats become exact rationals, and the two potentially
divergent walks (`find_process_lineage`'s while loop and
`find_related_processes`'s recursive child traversal) are given explicit
fuel, with `Option` marking divergence of the while loop.
-/


/-- Python's substring test `needle in hay`.  As in Python, the empty
needle is contained in every string. -/
def strContains (hay needle : String) : Bool :=
  hay.data.tails.any (fun t => needle.data.isPrefixOf t)

/-- Source `' '.join(args)`. -/
def joinArgs (args : List String) : String := " ".intercalate args

/-- The accumulation loop of `ArgumentMatcher.calculate_argument_match_score`:
`matches` starts at 0 and each reference adds `1` on an exact substring hit
against the joined argument text, else `0.5` on a partial hit against an
individual argument, else `0`. -/
def countMatches (argsText : String) (args : List String) : List String → ℚ
  | [] => 0
  | r :: rs =>
      (if strContains argsText r then (1 : ℚ)
       else if args.any (fun a => strContains a r || strContains r a) then 1/2
       else 0) + countMatches argsText args rs

/-- Source `ArgumentMatcher.calculate_argument_match_score` (lines 190-209). -/
def calculate_argument_match_score (refs args : List String) : ℚ :=
  if refs.isEmpty || args.isEmpty then 0
  else countMatches (joinArgs args) args refs / (refs.length : ℚ)

/-- Per-reference contribution exactly as the specification words it:
`1.0` if the reference occurs verbatim as a substring of the space-joined
argument text; else `0.5` if it is a substring of, or contains, some
individual argument; else `0.0`. -/
def specRefContribution (args : List String) (ref : String) : ℚ :=
  if strContains (joinArgs args) ref then 1
  else if args.any (fun a => strContains a ref || strContains ref a) then 1/2
  else 0

/-- Source `ProcessNode` (lines 27-37).  Nodes are keyed by pid, so the `children`
list and the `parent` reference are stored as pids; Python's dataclass
equality on `ProcessNode` coincides with pid equality inside one tree
because at most one node exists per pid. -/
structure PNode where
  pid : Int
  ppid : Int
  tid : Int
  comm : String
  start_time : Int
  children : List Int
  parent : Option Int
deriving DecidableEq, Repr

/-- A process event as `add_process_event` reads it, with the `dict.get`
defaults (`pid`/`ppid` default 0, `tid` defaults to `pid`,
`comm` defaults "unknown", `timestamp` defaults 0) already applied. -/
structure PEvent where
  pid : Int
  ppid : Int
  tid : Int
  comm : String
  timestamp : Int
deriving DecidableEq, Repr

/-- State of `ProcessTreeBuilder`: the insertion-ordered `processes` dict
and the `root_processes` list (of pids). -/
structure TreeState where
  processes : List (Int × PNode)
  root_processes : List Int
deriving DecidableEq, Repr

def TreeState.empty : TreeState := ⟨[], []⟩

/-- Lookup in an insertion-ordered association list (Python dict access;
keys are unique by construction, so first-match lookup is dict lookup). -/
def lookupL (l : List (Int × PNode)) (p : Int) : Option PNode :=
  match l with
  | [] => none
  | kv :: rest => if kv.1 = p then some kv.2 else lookupL rest p

def lookupNode (s : TreeState) (p : Int) : Option PNode := lookupL s.processes p

/-- Source `pid in self.processes`. -/
def containsPid (s : TreeState) (p : Int) : Bool := (lookupNode s p).isSome

/-- In-place mutation of the node stored under key `q`. -/
def updateNode (l : List (Int × PNode)) (q : Int) (f : PNode → PNode) :
    List (Int × PNode) :=
  l.map (fun kv => if kv.1 = q then (kv.1, f kv.2) else kv)

/-- Lines 80-83: create the node if the pid is unseen. -/
def createStep (s : TreeState) (e : PEvent) : TreeState :=
  if containsPid s e.pid then s
  else { s with processes :=
          s.processes ++ [(e.pid, ⟨e.pid, e.ppid, e.tid, e.comm, e.timestamp, [], none⟩)] }

/-- Line 90-91: `if node not in parent.children: parent.children.append(node)`. -/
def linkChild (c : Int) (n : PNode) : PNode :=
  if c ∈ n.children then n else { n with children := n.children ++ [c] }

/-- Line 92: `node.parent = parent`. -/
def setParent (pp : Int) (n : PNode) : PNode := { n with parent := some pp }

/-- Source `ProcessTreeBuilder.add_process_event` (lines 70-96).  Note that the
linking step uses the ppid carried by the *current event*, and that the
`elif ppid == 0 or ppid not in self.processes` guard leaves the state
untouched when a negative ppid is already a known key. -/
def linkStep (s1 : TreeState) (e : PEvent) : TreeState :=
  if e.ppid > 0 && containsPid s1 e.ppid then
    { s1 with processes :=
        updateNode (updateNode s1.processes e.ppid (linkChild e.pid)) e.pid (setParent e.ppid) }
  else if e.ppid == 0 || !(containsPid s1 e.ppid) then
    if e.pid ∈ s1.root_processes then s1
    else { s1 with root_processes := s1.root_processes ++ [e.pid] }
  else s1

def add_process_event (s : TreeState) (e : PEvent) : TreeState :=
  linkStep (createStep s e) e

/-- A whole stream of process events, applied in arrival order. -/
def applyEvents (es : List PEvent) : TreeState :=
  es.foldl add_process_event TreeState.empty

def parentOfN (s : TreeState) (p : Int) : Option Int :=
  (lookupNode s p).bind (·.parent)

def childrenOf (s : TreeState) (p : Int) : List Int :=
  ((lookupNode s p).map (·.children)).getD []

/-- The `while current:` walk of `find_process_lineage`, with fuel.
`none` marks fuel exhaustion, i.e. divergence of the Python loop. -/
def lineageWalk (s : TreeState) : Nat → Int → Option (List Int)
  | 0, _ => none
  | n+1, p =>
      match parentOfN s p with
      | none => some [p]
      | some q => (lineageWalk s n q).map (fun l => l ++ [p])

/-- Source `ProcessTreeBuilder.find_process_lineage` (lines 98-110).  The fuel
`processes.length + 1` is enough for every acyclic parent chain, so a
`none` result occurs exactly when the Python while loop never exits. -/
def find_process_lineage (s : TreeState) (p : Int) : Option (List Int) :=
  if containsPid s p then lineageWalk s (s.processes.length + 1) p
  else some []

/-- The recursive `add_children` traversal of `find_related_processes`,
with fuel bounding the recursion depth (the Python recursion overflows on
a cyclic `children` graph; on acyclic graphs depth is at most the number
of nodes, so the fuel used below is never exhausted there). -/
def descendantsAux (s : TreeState) : Nat → Int → List Int
  | 0, _ => []
  | n+1, p => (childrenOf s p).flatMap (fun c => c :: descendantsAux s n c)

/-- Source `ProcessTreeBuilder.find_related_processes` (lines 112-139): the pid
itself, its direct parent, all transitive descendants, and all children of
the parent (siblings).  The Python function returns a set; membership in
this list is the faithful reading. -/
def find_related_processes (s : TreeState) (p : Int) : List Int :=
  match lookupNode s p with
  | none => []
  | some n =>
      let par := match n.parent with | some pp => [pp] | none => []
      let sib := match n.parent with | some pp => childrenOf s pp | none => []
      p :: (par ++ descendantsAux s s.processes.length p ++ sib)

/-- A system event as the correlator reads it: the `timestamp`, `source`
and `data.pid` accesses with their `dict.get` defaults already applied,
and the optional `data` fields that feed argument extraction.  An `args`
value that is a JSON list is stored as a string list, a scalar as a
singleton. -/
structure SEvent where
  timestamp : Int
  source : String
  pid : Int
  comm : Option String
  args : Option (List String)
  filename : Option String
  path : Option String
  command : Option String
  syscall : Option String
deriving DecidableEq, Repr

def optStr : Option String → List String
  | some s => [s]
  | none => []

/-- The argument list built inside `_check_argument_match` (lines 424-431):
the fields `args`, `filename`, `path`, `command`, `syscall` in that order.
This is the `arguments` projection of a system event in the
specification's data model (§6 names exactly these five fields as the
argument-matching sources). -/
def checkMatchArgs (e : SEvent) : List String :=
  e.args.getD [] ++ optStr e.filename ++ optStr e.path ++ optStr e.command ++ optStr e.syscall

/-- Source `_extract_event_arguments` (lines 472-485): the same five fields plus
`comm`. -/
def extract_event_arguments (e : SEvent) : List String :=
  e.args.getD [] ++ optStr e.filename ++ optStr e.path ++ optStr e.command ++
    optStr e.syscall ++ optStr e.comm

/-- The `data` dict of an `http_parser` event, with defaults applied. -/
structure HttpData where
  message_type : String
  tid : Int
  pid : Int
  comm : String
  body : String
deriving DecidableEq, Repr

structure HttpEvent where
  timestamp : Int
  data : HttpData
deriving DecidableEq, Repr

/-- Source `LLMInteraction` (lines 40-50). -/
structure LLMInteraction where
  request_timestamp : Int
  response_timestamp : Int
  request_data : HttpData
  response_data : HttpData
  tid : Int
  pid : Int
  comm : String
  extracted_references : List String
deriving DecidableEq, Repr

/-- A pending request stored in `self._pending_requests[tid]`. -/
structure PendingReq where
  timestamp : Int
  data : HttpData
deriving DecidableEq, Repr

/-- The mutable state of `MultiSignalCorrelator`. -/
structure CorrState where
  temporal_window_ms : Int
  tree : TreeState
  llm_interactions : List LLMInteraction
  system_events : List SEvent
  pending_requests : List (Int × PendingReq)
deriving DecidableEq, Repr

/-- Source `self.temporal_window_ns = temporal_window_ms * 1_000_000`. -/
def temporal_window_ns (s : CorrState) : Int := s.temporal_window_ms * 1000000

def lookupPending (l : List (Int × PendingReq)) (t : Int) : Option PendingReq :=
  match l with
  | [] => none
  | kv :: rest => if kv.1 = t then some kv.2 else lookupPending rest t

def setPending (l : List (Int × PendingReq)) (t : Int) (v : PendingReq) :
    List (Int × PendingReq) :=
  if l.any (fun kv => kv.1 = t) then l.map (fun kv => if kv.1 = t then (t, v) else kv)
  else l ++ [(t, v)]

def removePending (l : List (Int × PendingReq)) (t : Int) : List (Int × PendingReq) :=
  l.filter (fun kv => kv.1 ≠ t)

/-- Source `MultiSignalCorrelator._process_http_event` (lines 256-295).  The
reference-extraction composite `extract_references(_extract_response_text(data))`
(regular-expression matching over the decoded body) is irrelevant to every
claim and is abstracted as the function argument `extractRefs`; all
theorems below hold for every such function.  A response whose tid has no
pending request takes no branch at all: the method body ends without any
mutation. -/
def process_http_event (extractRefs : String → List String) (s : CorrState)
    (e : HttpEvent) : CorrState :=
  if e.data.message_type == "request" then
    { s with pending_requests := setPending s.pending_requests e.data.tid ⟨e.timestamp, e.data⟩ }
  else if e.data.message_type == "response" then
    match lookupPending s.pending_requests e.data.tid with
    | some req =>
        { s with
          llm_interactions := s.llm_interactions ++
            [⟨req.timestamp, e.timestamp, req.data, e.data, e.data.tid, e.data.pid,
              e.data.comm, extractRefs e.data.body⟩],
          pending_requests := removePending s.pending_requests e.data.tid }
    | none => s
  else s

/-- The temporal predicate of lines 390-398:
`time_window_start <= event_timestamp <= time_window_end` with
`time_window_start = response_timestamp` and
`time_window_end = start + temporal_window_ns`. -/
def in_time_window (s : CorrState) (i : LLMInteraction) (e : SEvent) : Bool :=
  decide (i.response_timestamp ≤ e.timestamp ∧
          e.timestamp ≤ i.response_timestamp + temporal_window_ns s)

/-- Source `_check_argument_match` (lines 415-438): early `False` on an empty
reference set, otherwise `match_score > 0.3`. -/
def check_argument_match (i : LLMInteraction) (e : SEvent) : Bool :=
  if i.extracted_references.isEmpty then false
  else decide ((3 : ℚ)/10 <
        calculate_argument_match_score i.extracted_references (checkMatchArgs e))

/-- Stable insertion of the Python `list.sort(key=timestamp)` model. -/
def insertByTs (e : SEvent) : List SEvent → List SEvent
  | [] => [e]
  | x :: xs => if x.timestamp ≤ e.timestamp then x :: insertByTs e xs else e :: x :: xs

/-- Stable sort by timestamp (line 411). -/
def sortByTs : List SEvent → List SEvent
  | [] => []
  | x :: xs => insertByTs x (sortByTs xs)

/-- Source `_find_related_system_events` (lines 382-413): keep an event when the
temporal, lineage or argument predicate holds, then sort by timestamp. -/
def find_related_system_events (s : CorrState) (i : LLMInteraction) : List SEvent :=
  let related := find_related_processes s.tree i.pid
  sortByTs (s.system_events.filter (fun e =>
    in_time_window s i e || decide (e.pid ∈ related) || check_argument_match i e))

/-- The per-event combined score of `_calculate_correlation_score`
(lines 447-468): `max(0, 1 - |Δt|/W)*0.3 + lineage*0.3 + argument*0.4`,
where the argument score runs over the six-field
`_extract_event_arguments` list. -/
def per_event_score (s : CorrState) (i : LLMInteraction) (e : SEvent) : ℚ :=
  let time_diff : Int := |e.timestamp - i.response_timestamp|
  let temporal_score : ℚ := max 0 (1 - (time_diff : ℚ) / (temporal_window_ns s : ℚ))
  let process_score : ℚ :=
    if e.pid ∈ find_related_processes s.tree i.pid then 1 else 0
  let argument_score : ℚ :=
    calculate_argument_match_score i.extracted_references (extract_event_arguments e)
  temporal_score * (3/10) + process_score * (3/10) + argument_score * (4/10)

/-- Source `_calculate_correlation_score` (lines 440-470): mean of the per-event
scores, `0.0` on an empty list. -/
def calculate_correlation_score (s : CorrState) (i : LLMInteraction)
    (events : List SEvent) : ℚ :=
  if events.isEmpty then 0
  else (events.map (per_event_score s i)).sum / (events.length : ℚ)

/-- Source `_determine_correlation_type` (lines 487-516). -/
def determine_correlation_type (s : CorrState) (i : LLMInteraction)
    (events : List SEvent) : String :=
  let process_matches :=
    events.countP (fun e => decide (e.pid ∈ find_related_processes s.tree i.pid))
  let temporal_matches := events.countP (in_time_window s i)
  let argument_matches := events.countP (check_argument_match i)
  if 0 < argument_matches then "argument_matching"
  else if process_matches < temporal_matches then "temporal_proximity"
  else "process_lineage"

structure EvidenceDetail where
  timestamp : Int
  source : String
  pid : Int
  arguments : List String
  time_offset_ms : ℚ
deriving DecidableEq, Repr

/-- The evidence dict of `_gather_correlation_evidence` (lines 518-537). -/
structure Evidence where
  llm_references : List String
  time_window_ms : Int
  process_lineage : List Int
  event_details : List EvidenceDetail
deriving DecidableEq, Repr

def gather_correlation_evidence (s : CorrState) (i : LLMInteraction)
    (events : List SEvent) : Evidence :=
  ⟨i.extracted_references, s.temporal_window_ms, find_related_processes s.tree i.pid,
   events.map (fun e =>
     ⟨e.timestamp, e.source, e.pid, extract_event_arguments e,
      ((e.timestamp - i.response_timestamp : Int) : ℚ) / 1000000⟩)⟩

/-- Source `CorrelatedEvent` (lines 53-60). -/
structure CorrelatedEvent where
  llm_interaction : LLMInteraction
  system_actions : List SEvent
  correlation_score : ℚ
  correlation_type : String
  evidence : Evidence
deriving DecidableEq, Repr

/-- Source `MultiSignalCorrelator.correlate_events` (lines 358-380): one pass
over the interactions in stored order; an interaction yields a
`CorrelatedEvent` exactly when its related-event list is nonempty, and
the results are appended in discovery order (no sorting). -/
def correlate_events (s : CorrState) : List CorrelatedEvent :=
  s.llm_interactions.filterMap (fun i =>
    let related := find_related_system_events s i
    if related.isEmpty then none
    else some ⟨i, related, calculate_correlation_score s i related,
               determine_correlation_type s i related,
               gather_correlation_evidence s i related⟩)

/-- Three well-formed process events: pid 1 reports parent 2 before 2 is
known, 2 reports parent 1, then a repeated event for 1 links 1 under 2. -/
def esCycle : List PEvent := [⟨1, 2, 1, "a", 10⟩, ⟨2, 1, 2, "b", 11⟩, ⟨1, 2, 1, "a", 12⟩]

def esReassign : List PEvent :=
  [⟨1, 0, 1, "a", 10⟩, ⟨2, 0, 2, "b", 11⟩, ⟨5, 1, 5, "c", 12⟩, ⟨5, 2, 5, "c", 13⟩]

def esOrphan : List PEvent :=
  [⟨5, 3, 5, "x", 10⟩, ⟨3, 0, 3, "y", 11⟩, ⟨5, 3, 5, "x", 12⟩]

def s5 : TreeState := applyEvents [⟨1, 0, 1, "a", 10⟩]

def e5 : PEvent := ⟨5, 1, 5, "b", 11⟩

def dH : HttpData := ⟨"", 0, 0, "", ""⟩

def iC1w : LLMInteraction := ⟨0, 1000, dH, dH, 9, 9, "w", []⟩

def evC1in : SEvent := ⟨1001, "process", 0, none, none, none, none, none, none⟩

def evC1out : SEvent := ⟨1001001, "process", 0, none, none, none, none, none, none⟩

def sC1w : CorrState := ⟨1, TreeState.empty, [iC1w], [evC1in, evC1out], []⟩

def iC7a : LLMInteraction := ⟨0, 0, dH, dH, 1, 1, "a", []⟩

def iC7b : LLMInteraction := ⟨0, 1000000, dH, dH, 2, 2, "b", []⟩

def evC7 : SEvent := ⟨1000000, "process", 0, none, none, none, none, none, none⟩

def sC7 : CorrState := ⟨1, TreeState.empty, [iC7a, iC7b], [evC7], []⟩

def evResp7 : HttpEvent := ⟨3000, ⟨"response", 7, 0, "", ""⟩⟩

def sInit : CorrState := ⟨500, TreeState.empty, [], [], []⟩

def iC2 : LLMInteraction := ⟨0, 1000, dH, dH, 4, 50, "c2", ["/tmp/out.txt"]⟩

def evT1 : SEvent := ⟨1001, "process", 0, none, none, none, none, none, none⟩

def evT2 : SEvent := ⟨1002, "process", 0, none, none, none, none, none, none⟩

def evA3 : SEvent := ⟨2001000, "process", 0, none, none, some "/tmp/out.txt", none, none, none⟩

def sC2 : CorrState := ⟨1, TreeState.empty, [iC2], [evT1, evT2, evA3], []⟩

/-- The per-event score exactly as claim C3 words it: the temporal term
is `clamp(1 - (eventTimestamp - responseTimestamp)/W, 0, 1)` on the
*signed* offset, and the argument term runs over the event's five-field
`arguments` projection (no `comm`). -/
def claimPerEventScore (s : CorrState) (i : LLMInteraction) (e : SEvent) : ℚ :=
  min 1 (max 0 (1 - ((e.timestamp - i.response_timestamp : Int) : ℚ) /
      (temporal_window_ns s : ℚ))) * (3/10) +
  (if e.pid ∈ find_related_processes s.tree i.pid then (1 : ℚ) else 0) * (3/10) +
  calculate_argument_match_score i.extracted_references (checkMatchArgs e) * (4/10)

def tC3 : TreeState := applyEvents [⟨100, 0, 100, "p", 1⟩]

def iC3 : LLMInteraction := ⟨0, 1000, dH, dH, 3, 100, "c3", ["abc"]⟩

def evC3 : SEvent := ⟨0, "process", 100, some "abc", none, none, none, none, none⟩

def sC3 : CorrState := ⟨1, tC3, [iC3], [evC3], []⟩

def sC3w : CorrState := ⟨1, TreeState.empty, [iC7b], [evC7], []⟩

/-- The single correlation emitted for the one-interaction state `sC3w`. -/
def cW : CorrelatedEvent :=
  ⟨iC7b, [evC7], calculate_correlation_score sC3w iC7b [evC7],
   determine_correlation_type sC3w iC7b [evC7],
   gather_correlation_evidence sC3w iC7b [evC7]⟩

def tC4 : TreeState := applyEvents [⟨100, 0, 100, "p", 1⟩]

def iC4 : LLMInteraction := ⟨0, 0, dH, dH, 5, 100, "c4", []⟩

def evC4 : SEvent := ⟨4000000, "process", 100, none, none, none, none, none, none⟩

def sC4 : CorrState := ⟨-1, tC4, [iC4], [evC4], []⟩


/-! ## Basic lemmas about the association-list operations -/

lemma lookupL_eq_none_iff (l : List (Int × PNode)) (p : Int) :
    lookupL l p = none ↔ p ∉ l.map (·.1) := by
  induction l with
  | nil => simp [lookupL]
  | cons kv l ih =>
      by_cases h : kv.1 = p
      · simp [lookupL, h]
      · have h' : ¬ p = kv.1 := fun hh => h hh.symm
        simp [lookupL, h, h', ih]

lemma lookupL_update (l : List (Int × PNode)) (q : Int) (f : PNode → PNode) (p : Int) :
    lookupL (updateNode l q f) p =
      if p = q then (lookupL l p).map f else lookupL l p := by
  induction l with
  | nil => by_cases h : p = q <;> simp [updateNode, lookupL, h]
  | cons kv l ih =>
      by_cases hkq : kv.1 = q
      · have hhead : updateNode (kv :: l) q f = (kv.1, f kv.2) :: updateNode l q f := by
          simp [updateNode, hkq]
        rw [hhead]
        by_cases hkp : kv.1 = p
        · have hpq : p = q := hkp.symm.trans hkq
          simp [lookupL, hkp, hpq]
        · simp [lookupL, hkp, ih]
      · have hhead : updateNode (kv :: l) q f = kv :: updateNode l q f := by
          simp [updateNode, hkq]
        rw [hhead]
        by_cases hkp : kv.1 = p
        · have hpq : ¬ p = q := fun hh => hkq (hkp.trans hh)
          simp [lookupL, hkp, hpq]
        · simp [lookupL, hkp, ih]

lemma lookupL_append_single (l : List (Int × PNode)) (k : Int) (v : PNode) (p : Int) :
    lookupL (l ++ [(k, v)]) p =
      match lookupL l p with
      | some n => some n
      | none => if k = p then some v else none := by
  induction l with
  | nil => simp [lookupL]
  | cons kv l ih =>
      by_cases hkp : kv.1 = p
      · simp [lookupL, hkp]
      · simp [lookupL, hkp, ih]

lemma keys_updateNode (l : List (Int × PNode)) (q : Int) (f : PNode → PNode) :
    (updateNode l q f).map (·.1) = l.map (·.1) := by
  induction l with
  | nil => rfl
  | cons kv l ih =>
      by_cases hkq : kv.1 = q
      · have : updateNode (kv :: l) q f = (kv.1, f kv.2) :: updateNode l q f := by
          simp [updateNode, hkq]
        rw [this, List.map_cons, List.map_cons, ih]
      · have : updateNode (kv :: l) q f = kv :: updateNode l q f := by
          simp [updateNode, hkq]
        rw [this, List.map_cons, List.map_cons, ih]

/-! ## Single-step behavior of add_process_event -/

lemma lookupNode_eq_none_of_not_contains (s : TreeState) (p : Int)
    (h : ¬ containsPid s p = true) : lookupNode s p = none := by
  unfold containsPid at h
  rcases ho : lookupNode s p with _ | n
  · rfl
  · rw [ho] at h; simp at h

lemma lookup_createStep_of_some (s : TreeState) (e : PEvent) (p : Int) (n : PNode)
    (h : lookupNode s p = some n) : lookupNode (createStep s e) p = some n := by
  unfold createStep
  by_cases hc : containsPid s e.pid
  · simp [hc, h]
  · simp only [hc, Bool.false_eq_true, if_false]
    unfold lookupNode at h ⊢
    rw [lookupL_append_single, h]

lemma contains_createStep_self (s : TreeState) (e : PEvent) :
    containsPid (createStep s e) e.pid = true := by
  unfold createStep
  by_cases hc : containsPid s e.pid
  · rw [if_pos hc]; exact hc
  · rw [if_neg hc]
    have hn : lookupNode s e.pid = none := lookupNode_eq_none_of_not_contains s e.pid hc
    unfold containsPid lookupNode at hn ⊢
    rw [lookupL_append_single, hn]
    simp

lemma lookup_createStep_other (s : TreeState) (e : PEvent) (p : Int) (h : e.pid ≠ p) :
    lookupNode (createStep s e) p = lookupNode s p := by
  unfold createStep
  by_cases hc : containsPid s e.pid
  · rw [if_pos hc]
  · rw [if_neg hc]
    unfold lookupNode
    rw [lookupL_append_single]
    rcases ho : lookupL s.processes p with _ | n <;> simp [h]

/-- The five own fields (and the parent link) of a node survive `linkChild`. -/
lemma linkChild_fields (c : Int) (n : PNode) :
    (linkChild c n).pid = n.pid ∧ (linkChild c n).ppid = n.ppid ∧
    (linkChild c n).tid = n.tid ∧ (linkChild c n).comm = n.comm ∧
    (linkChild c n).start_time = n.start_time ∧ (linkChild c n).parent = n.parent := by
  unfold linkChild; split <;> simp

lemma setParent_fields (pp : Int) (n : PNode) :
    (setParent pp n).pid = n.pid ∧ (setParent pp n).ppid = n.ppid ∧
    (setParent pp n).tid = n.tid ∧ (setParent pp n).comm = n.comm ∧
    (setParent pp n).start_time = n.start_time := by
  unfold setParent; simp

lemma linkStep_cond_true (s1 : TreeState) (e : PEvent)
    (h : 0 < e.ppid ∧ containsPid s1 e.ppid = true) :
    (linkStep s1 e).processes =
      updateNode (updateNode s1.processes e.ppid (linkChild e.pid)) e.pid (setParent e.ppid) := by
  unfold linkStep
  rw [if_pos (by simp [h.1, h.2])]

lemma linkStep_cond_false_processes (s1 : TreeState) (e : PEvent)
    (h : ¬ (0 < e.ppid ∧ containsPid s1 e.ppid = true)) :
    (linkStep s1 e).processes = s1.processes := by
  unfold linkStep
  rw [if_neg (by simpa [Bool.and_eq_true, decide_eq_true_eq] using h)]
  split
  · split <;> rfl
  · rfl

lemma linkStep_preserves_node (s1 : TreeState) (e : PEvent) (p : Int) (n : PNode)
    (h : lookupNode s1 p = some n) :
    ∃ n', lookupNode (linkStep s1 e) p = some n' ∧
      n'.pid = n.pid ∧ n'.ppid = n.ppid ∧ n'.tid = n.tid ∧
      n'.comm = n.comm ∧ n'.start_time = n.start_time := by
  by_cases hcond : 0 < e.ppid ∧ containsPid s1 e.ppid = true
  · unfold lookupNode at h ⊢
    rw [linkStep_cond_true s1 e hcond]
    rw [lookupL_update, lookupL_update]
    by_cases hp1 : p = e.pid <;> by_cases hp2 : p = e.ppid
    · rw [if_pos hp1, if_pos hp2, h]
      refine ⟨setParent e.ppid (linkChild e.pid n), rfl, ?_⟩
      obtain ⟨a1, a2, a3, a4, a5, _⟩ := linkChild_fields e.pid n
      obtain ⟨b1, b2, b3, b4, b5⟩ := setParent_fields e.ppid (linkChild e.pid n)
      exact ⟨b1.trans a1, b2.trans a2, b3.trans a3, b4.trans a4, b5.trans a5⟩
    · rw [if_pos hp1, if_neg hp2, h]
      refine ⟨setParent e.ppid n, rfl, ?_⟩
      obtain ⟨b1, b2, b3, b4, b5⟩ := setParent_fields e.ppid n
      exact ⟨b1, b2, b3, b4, b5⟩
    · rw [if_neg hp1, if_pos hp2, h]
      refine ⟨linkChild e.pid n, rfl, ?_⟩
      obtain ⟨a1, a2, a3, a4, a5, _⟩ := linkChild_fields e.pid n
      exact ⟨a1, a2, a3, a4, a5⟩
    · rw [if_neg hp1, if_neg hp2, h]
      exact ⟨n, rfl, rfl, rfl, rfl, rfl, rfl⟩
  · have hp := linkStep_cond_false_processes s1 e hcond
    unfold lookupNode at h ⊢
    rw [hp, h]
    exact ⟨n, rfl, rfl, rfl, rfl, rfl, rfl⟩

lemma linkStep_parent_other (s1 : TreeState) (e : PEvent) (p : Int) (h : e.pid ≠ p) :
    parentOfN (linkStep s1 e) p = parentOfN s1 p := by
  by_cases hcond : 0 < e.ppid ∧ containsPid s1 e.ppid = true
  · unfold parentOfN lookupNode
    rw [linkStep_cond_true s1 e hcond]
    rw [lookupL_update, lookupL_update]
    have hp1 : ¬ p = e.pid := fun hh => h hh.symm
    rw [if_neg hp1]
    by_cases hp2 : p = e.ppid
    · rw [if_pos hp2]
      rcases ho : lookupL s1.processes p with _ | n
      · rfl
      · simp [(linkChild_fields e.pid n).2.2.2.2.2]
    · rw [if_neg hp2]
  · have hp := linkStep_cond_false_processes s1 e hcond
    unfold parentOfN lookupNode
    rw [hp]

lemma linkStep_parent_self (s1 : TreeState) (e : PEvent)
    (hc : containsPid s1 e.pid = true) :
    parentOfN (linkStep s1 e) e.pid =
      if 0 < e.ppid ∧ containsPid s1 e.ppid = true then some e.ppid
      else parentOfN s1 e.pid := by
  by_cases hcond : 0 < e.ppid ∧ containsPid s1 e.ppid = true
  · rw [if_pos hcond]
    unfold containsPid at hc
    rcases ho : lookupNode s1 e.pid with _ | n
    · rw [ho] at hc; simp at hc
    · unfold parentOfN lookupNode
      unfold lookupNode at ho
      rw [linkStep_cond_true s1 e hcond]
      rw [lookupL_update, if_pos rfl, lookupL_update]
      by_cases hpp : e.pid = e.ppid
      · rw [if_pos hpp, ho]
        simp [setParent]
      · rw [if_neg hpp, ho]
        simp [setParent]
  · rw [if_neg hcond]
    have hp := linkStep_cond_false_processes s1 e hcond
    unfold parentOfN lookupNode
    rw [hp]

lemma step_preserves_node (s : TreeState) (e : PEvent) (p : Int) (n : PNode)
    (h : lookupNode s p = some n) :
    ∃ n', lookupNode (add_process_event s e) p = some n' ∧
      n'.pid = n.pid ∧ n'.ppid = n.ppid ∧ n'.tid = n.tid ∧
      n'.comm = n.comm ∧ n'.start_time = n.start_time :=
  linkStep_preserves_node (createStep s e) e p n (lookup_createStep_of_some s e p n h)

lemma step_parent_other (s : TreeState) (e : PEvent) (p : Int) (h : e.pid ≠ p) :
    parentOfN (add_process_event s e) p = parentOfN s p := by
  unfold add_process_event
  rw [linkStep_parent_other (createStep s e) e p h]
  unfold parentOfN
  rw [lookup_createStep_other s e p h]

lemma step_parent_self (s : TreeState) (e : PEvent) :
    parentOfN (add_process_event s e) e.pid =
      if 0 < e.ppid ∧ containsPid (createStep s e) e.ppid = true then some e.ppid
      else parentOfN (createStep s e) e.pid :=
  linkStep_parent_self (createStep s e) e (contains_createStep_self s e)

lemma keys_createStep (s : TreeState) (e : PEvent) :
    (createStep s e).processes.map (·.1) =
      if containsPid s e.pid then s.processes.map (·.1)
      else s.processes.map (·.1) ++ [e.pid] := by
  unfold createStep
  split <;> simp_all

lemma keys_linkStep (s1 : TreeState) (e : PEvent) :
    (linkStep s1 e).processes.map (·.1) = s1.processes.map (·.1) := by
  by_cases hcond : 0 < e.ppid ∧ containsPid s1 e.ppid = true
  · rw [linkStep_cond_true s1 e hcond, keys_updateNode, keys_updateNode]
  · rw [linkStep_cond_false_processes s1 e hcond]

lemma keys_step (s : TreeState) (e : PEvent) :
    (add_process_event s e).processes.map (·.1) =
      if containsPid s e.pid then s.processes.map (·.1)
      else s.processes.map (·.1) ++ [e.pid] := by
  unfold add_process_event
  rw [keys_linkStep, keys_createStep]

lemma nodup_keys_step (s : TreeState) (e : PEvent)
    (h : (s.processes.map (·.1)).Nodup) :
    ((add_process_event s e).processes.map (·.1)).Nodup := by
  rw [keys_step]
  split
  · exact h
  · next hc =>
    have hmem : e.pid ∉ s.processes.map (·.1) := by
      rw [← lookupL_eq_none_iff]
      exact lookupNode_eq_none_of_not_contains s e.pid (by simp [hc])
    simp [List.nodup_append, h, hmem]

lemma nodup_keys_foldl (es : List PEvent) (s : TreeState)
    (h : (s.processes.map (·.1)).Nodup) :
    (((es.foldl add_process_event s).processes).map (·.1)).Nodup := by
  induction es generalizing s with
  | nil => simpa using h
  | cons e es ih => exact ih _ (nodup_keys_step s e h)

lemma contains_step (s : TreeState) (e : PEvent) (p : Int)
    (h : containsPid (add_process_event s e) p = true) :
    containsPid s p = true ∨ e.pid = p := by
  by_cases hp : e.pid = p
  · exact Or.inr hp
  · left
    by_cases hsp : containsPid s p = true
    · exact hsp
    · exfalso
      have hnone : lookupNode s p = none := lookupNode_eq_none_of_not_contains s p hsp
      have hnot : p ∉ s.processes.map (·.1) := (lookupL_eq_none_iff _ _).mp hnone
      have hp' : ¬ p = e.pid := fun hh => hp hh.symm
      have hmem : p ∉ (add_process_event s e).processes.map (·.1) := by
        rw [keys_step]
        split
        · exact hnot
        · simp [hnot, hp']
      rw [← lookupL_eq_none_iff] at hmem
      unfold containsPid lookupNode at h
      rw [hmem] at h
      simp at h

lemma contains_foldl (es : List PEvent) (s : TreeState) (p : Int)
    (h : containsPid (es.foldl add_process_event s) p = true) :
    containsPid s p = true ∨ ∃ e ∈ es, e.pid = p := by
  induction es generalizing s with
  | nil => exact Or.inl (by simpa using h)
  | cons e es ih =>
      rcases ih (add_process_event s e) (by simpa using h) with h1 | h1
      · rcases contains_step s e p h1 with h2 | h2
        · exact Or.inl h2
        · exact Or.inr ⟨e, by simp, h2⟩
      · rcases h1 with ⟨e', he', hpe⟩
        exact Or.inr ⟨e', by simp [he'], hpe⟩

/-! ## Claim C9: the argument match score -/

lemma countMatches_eq_sum (args : List String) (refs : List String) :
    countMatches (joinArgs args) args refs =
      (refs.map (specRefContribution args)).sum := by
  induction refs with
  | nil => simp [countMatches]
  | cons r rs ih => simp [countMatches, specRefContribution, ih]

/-- C9: `calculate_argument_match_score` returns exactly 0 when either the
reference set or the argument list is empty; otherwise it is the
arithmetic mean over the references of the per-reference contribution
(1 for a verbatim substring of the space-joined argument text, else 1/2
when the reference is a substring of or contains some individual argument,
else 0). -/
theorem match_score_spec :
    (∀ args : List String, calculate_argument_match_score [] args = 0) ∧
    (∀ refs : List String, calculate_argument_match_score refs [] = 0) ∧
    (∀ refs args : List String, refs ≠ [] → args ≠ [] →
      calculate_argument_match_score refs args =
        (refs.map (specRefContribution args)).sum / (refs.length : ℚ)) := by
  refine ⟨?_, ?_, ?_⟩
  · intro args; simp [calculate_argument_match_score]
  · intro refs; simp [calculate_argument_match_score]
  · intro refs args h1 h2
    have e1 : refs.isEmpty = false := by
      cases refs with
      | nil => exact absurd rfl h1
      | cons a l => rfl
    have e2 : args.isEmpty = false := by
      cases args with
      | nil => exact absurd rfl h2
      | cons a l => rfl
    simp [calculate_argument_match_score, e1, e2, countMatches_eq_sum]

theorem match_score_spec_witness :
    calculate_argument_match_score ["abc"] ["zabcy"] =
      ((["abc"] : List String).map (specRefContribution ["zabcy"])).sum /
        (((["abc"] : List String).length : ℚ)) :=
  match_score_spec.2.2 ["abc"] ["zabcy"] (by simp) (by simp)

/-! ## Claim C10: unknown pids -/

/-- C10: for a pid for which no process event was ever recorded, the
lineage is the empty list (not a failure, not the pid itself) and the
related-process set is empty, so the lineage predicate holds for no
event and correlation proceeds on the other two signals. -/
theorem unknown_pid_yields_empty :
    (∀ (s : TreeState) (p : Int), containsPid s p = false →
      find_process_lineage s p = some [] ∧ find_related_processes s p = [] ∧
      ∀ q : Int, q ∉ find_related_processes s p) ∧
    (∀ (es : List PEvent) (p : Int), (∀ e ∈ es, e.pid ≠ p) →
      containsPid (applyEvents es) p = false) := by
  constructor
  · intro s p h
    have hn : lookupNode s p = none :=
      lookupNode_eq_none_of_not_contains s p (by simp [h])
    refine ⟨?_, ?_, ?_⟩
    · unfold find_process_lineage
      rw [if_neg (by simp [h])]
    · unfold find_related_processes
      rw [hn]
    · intro q
      unfold find_related_processes
      rw [hn]
      simp
  · intro es p h
    cases hb : containsPid (applyEvents es) p with
    | false => rfl
    | true =>
        rcases contains_foldl es TreeState.empty p hb with h1 | ⟨e, he, hpe⟩
        · simp [containsPid, lookupNode, TreeState.empty, lookupL] at h1
        · exact absurd hpe (h e he)

theorem unknown_pid_yields_empty_witness :
    (find_process_lineage TreeState.empty 42 = some [] ∧
     find_related_processes TreeState.empty 42 = [] ∧
     ∀ q : Int, q ∉ find_related_processes TreeState.empty 42) ∧
    containsPid (applyEvents [⟨7, 0, 7, "a", 1⟩]) 42 = false :=
  ⟨unknown_pid_yields_empty.1 TreeState.empty 42 rfl,
   unknown_pid_yields_empty.2 [⟨7, 0, 7, "a", 1⟩] 42 (by decide)⟩

/-! ## Claim C6: a constructible parent cycle makes the lineage walk diverge -/

/-- C6 (code bug): after `esCycle`, nodes 1 and 2 are each other's parent,
so the `while current:` loop of `find_process_lineage` never terminates on
pid 1 (the fuel-indexed walk returns `none` for every fuel).  The claim
that every constructible tree is acyclic and `lineage` always terminates
is falsified by this input. -/
theorem lineage_cycle_diverges :
    parentOfN (applyEvents esCycle) 1 = some 2 ∧
    parentOfN (applyEvents esCycle) 2 = some 1 ∧
    (∀ n : Nat, lineageWalk (applyEvents esCycle) n 1 = none) ∧
    find_process_lineage (applyEvents esCycle) 1 = none := by
  have h1 : parentOfN (applyEvents esCycle) 1 = some 2 := by decide
  have h2 : parentOfN (applyEvents esCycle) 2 = some 1 := by decide
  have key : ∀ n : Nat, lineageWalk (applyEvents esCycle) n 1 = none ∧
      lineageWalk (applyEvents esCycle) n 2 = none := by
    intro n
    induction n with
    | zero => exact ⟨rfl, rfl⟩
    | succ m ih =>
        constructor
        · simp [lineageWalk, h1, ih.2]
        · simp [lineageWalk, h2, ih.1]
  have hc : containsPid (applyEvents esCycle) 1 = true := by decide
  refine ⟨h1, h2, fun n => (key n).1, ?_⟩
  unfold find_process_lineage
  rw [if_pos hc]
  exact (key _).1

/-! ## Claim C5: the upsert behavior of add_process_event -/

/-- C5 counterexample.  First sequence: pid 5's parent link is first set
to 1 and then *overwritten* to 2 by a later event carrying ppid 2 — the
link is not "established only if still unset" (while the node's stored
`ppid` field keeps its original value 1).  Second sequence: pid 5 arrives
as an orphan (parent 3 unknown, 5 goes to the root set), 3 arrives, and a
further event for 5 *does* retroactively attach 5 under 3 — contradicting
"never retroactively reattached ... even if ... further events arrive
later in the stream". -/
theorem parent_link_counterexample :
    parentOfN (applyEvents (esReassign.take 3)) 5 = some 1 ∧
    parentOfN (applyEvents esReassign) 5 = some 2 ∧
    (lookupL (applyEvents esReassign).processes 5).map (·.ppid) = some 1 ∧
    parentOfN (applyEvents (esOrphan.take 2)) 5 = none ∧
    5 ∈ (applyEvents (esOrphan.take 2)).root_processes ∧
    parentOfN (applyEvents esOrphan) 5 = some 3 := by decide

/-- C5 (amended): at most one node exists per pid; a node's own fields
(`pid`, `ppid`, `tid`, `comm`, `start_time`) never change once created;
an event never touches the parent link of any *other* pid; and an event
for pid `p` sets `p`'s parent link to the event's ppid exactly when that
ppid is positive and already known (otherwise the link is left as it
was) — so the link is reassigned on every such event, not only when it
was unset, and an orphan is adopted as soon as a further event for the
same pid arrives after its parent became known. -/
theorem process_tree_upsert_invariants :
    (∀ es : List PEvent, ((applyEvents es).processes.map (·.1)).Nodup) ∧
    (∀ (s : TreeState) (e : PEvent) (p : Int) (n : PNode),
      lookupNode s p = some n →
      ∃ n', lookupNode (add_process_event s e) p = some n' ∧
        n'.pid = n.pid ∧ n'.ppid = n.ppid ∧ n'.tid = n.tid ∧
        n'.comm = n.comm ∧ n'.start_time = n.start_time) ∧
    (∀ (s : TreeState) (e : PEvent) (p : Int), e.pid ≠ p →
      parentOfN (add_process_event s e) p = parentOfN s p) ∧
    (∀ (s : TreeState) (e : PEvent),
      parentOfN (add_process_event s e) e.pid =
        if 0 < e.ppid ∧ containsPid (createStep s e) e.ppid = true then some e.ppid
        else parentOfN (createStep s e) e.pid) := by
  refine ⟨?_, step_preserves_node, step_parent_other, step_parent_self⟩
  intro es
  exact nodup_keys_foldl es TreeState.empty (by simp [TreeState.empty])

theorem process_tree_upsert_invariants_witness :
    (∃ n', lookupNode (add_process_event s5 e5) 1 = some n' ∧
      n'.pid = 1 ∧ n'.ppid = 0 ∧ n'.tid = 1 ∧ n'.comm = "a" ∧ n'.start_time = 10) ∧
    parentOfN (add_process_event s5 e5) 1 = parentOfN s5 1 := by
  constructor
  · exact process_tree_upsert_invariants.2.1 s5 e5 1 ⟨1, 0, 1, "a", 10, [], none⟩ (by decide)
  · exact process_tree_upsert_invariants.2.2.1 s5 e5 1 (by decide)

/-! ## Lemmas about the correlation pipeline -/

lemma insertByTs_perm (e : SEvent) (l : List SEvent) :
    List.Perm (insertByTs e l) (e :: l) := by
  induction l with
  | nil => exact List.Perm.refl _
  | cons x xs ih =>
      unfold insertByTs
      split
      · exact (ih.cons x).trans (List.Perm.swap e x xs)
      · exact List.Perm.refl _

lemma sortByTs_perm (l : List SEvent) : List.Perm (sortByTs l) l := by
  induction l with
  | nil => exact List.Perm.refl _
  | cons x xs ih => exact (insertByTs_perm x (sortByTs xs)).trans (ih.cons x)

lemma mem_sortByTs (e : SEvent) (l : List SEvent) : e ∈ sortByTs l ↔ e ∈ l :=
  (sortByTs_perm l).mem_iff

lemma check_argument_match_iff (i : LLMInteraction) (e : SEvent) :
    check_argument_match i e = true ↔
      (3 : ℚ)/10 <
        calculate_argument_match_score i.extracted_references (checkMatchArgs e) := by
  unfold check_argument_match
  by_cases h : i.extracted_references.isEmpty
  · have hz : calculate_argument_match_score i.extracted_references (checkMatchArgs e) = 0 := by
      unfold calculate_argument_match_score
      rw [if_pos (by simp [h])]
    rw [hz, if_pos h]
    simp
    norm_num
  · rw [if_neg h]
    simp

lemma mem_find_related_iff (s : CorrState) (i : LLMInteraction) (e : SEvent) :
    e ∈ find_related_system_events s i ↔
      e ∈ s.system_events ∧
        ((i.response_timestamp ≤ e.timestamp ∧
          e.timestamp ≤ i.response_timestamp + temporal_window_ns s) ∨
         e.pid ∈ find_related_processes s.tree i.pid ∨
         (3 : ℚ)/10 <
           calculate_argument_match_score i.extracted_references (checkMatchArgs e)) := by
  unfold find_related_system_events
  rw [mem_sortByTs, List.mem_filter]
  simp [in_time_window, check_argument_match_iff, or_assoc]

/-! ## Claim C1: inclusion is the OR of the three predicates -/

/-- C1: a system event from the global event list is included in an
interaction's correlated actions iff its timestamp lies in the closed
window `[T, T + W]`, or its pid is in the related-process set of the
interaction's pid, or the argument match score over its five argument
fields exceeds 0.3.  In particular an event at `T + W + 1` matching
neither lineage nor argument is excluded, and (for a positive window) an
event at `T + 1` matching neither is included, temporal-only. -/
theorem related_event_inclusion :
    (∀ (s : CorrState) (i : LLMInteraction) (e : SEvent),
      e ∈ find_related_system_events s i ↔
        e ∈ s.system_events ∧
          ((i.response_timestamp ≤ e.timestamp ∧
            e.timestamp ≤ i.response_timestamp + temporal_window_ns s) ∨
           e.pid ∈ find_related_processes s.tree i.pid ∨
           (3 : ℚ)/10 <
             calculate_argument_match_score i.extracted_references (checkMatchArgs e))) ∧
    (∀ (s : CorrState) (i : LLMInteraction) (e : SEvent),
      e ∈ s.system_events →
      e.pid ∉ find_related_processes s.tree i.pid →
      ¬ ((3 : ℚ)/10 <
          calculate_argument_match_score i.extracted_references (checkMatchArgs e)) →
      (e.timestamp = i.response_timestamp + temporal_window_ns s + 1 →
        e ∉ find_related_system_events s i) ∧
      (1 ≤ temporal_window_ns s → e.timestamp = i.response_timestamp + 1 →
        e ∈ find_related_system_events s i)) := by
  refine ⟨mem_find_related_iff, ?_⟩
  intro s i e hmem hlin harg
  constructor
  · intro hts hin
    rcases (mem_find_related_iff s i e).mp hin with ⟨_, h⟩
    rcases h with htemp | hl | ha
    · omega
    · exact hlin hl
    · exact harg ha
  · intro hw hts
    exact (mem_find_related_iff s i e).mpr ⟨hmem, Or.inl (by omega)⟩

theorem related_event_inclusion_witness :
    evC1out ∉ find_related_system_events sC1w iC1w ∧
    evC1in ∈ find_related_system_events sC1w iC1w := by
  have harg : ∀ e : SEvent, ¬ ((3 : ℚ)/10 <
      calculate_argument_match_score iC1w.extracted_references (checkMatchArgs e)) := by
    intro e
    norm_num [iC1w, calculate_argument_match_score]
  constructor
  · exact (related_event_inclusion.2 sC1w iC1w evC1out (by decide) (by decide)
      (harg evC1out)).1 (by decide)
  · exact (related_event_inclusion.2 sC1w iC1w evC1in (by decide) (by decide)
      (harg evC1in)).2 (by decide) (by decide)

/-! ## Claim C7: output order of correlate_events -/

lemma filterMap_if_map (p : LLMInteraction → Bool) (g : LLMInteraction → CorrelatedEvent)
    (hg : ∀ i, (g i).llm_interaction = i) (l : List LLMInteraction) :
    (l.filterMap (fun i => if p i then none else some (g i))).map (·.llm_interaction) =
      l.filter (fun i => !(p i)) := by
  induction l with
  | nil => rfl
  | cons i l ih =>
      cases hpi : p i <;>
        simp [List.filterMap_cons, List.filter_cons, hpi, hg, ih]

/-- C7 (amended): the correlations are emitted in discovery order — one
per interaction with a nonempty related-event list, in the stored
interaction order; `correlate_events` and `export_correlations` apply no
sorting by score (only the printed summary sorts a private copy). -/
theorem correlations_in_discovery_order (s : CorrState) :
    (correlate_events s).map (·.llm_interaction) =
      s.llm_interactions.filter (fun i => !(find_related_system_events s i).isEmpty) := by
  unfold correlate_events
  exact filterMap_if_map (fun i => (find_related_system_events s i).isEmpty)
    (fun i => ⟨i, find_related_system_events s i,
      calculate_correlation_score s i (find_related_system_events s i),
      determine_correlation_type s i (find_related_system_events s i),
      gather_correlation_evidence s i (find_related_system_events s i)⟩)
    (fun i => rfl) s.llm_interactions

/-- C7 counterexample: a two-interaction trace whose emitted correlation
scores are `[0, 3/10]` — strictly increasing, not score-descending, so
the output is in discovery order rather than sorted by score. -/
theorem correlations_not_score_sorted :
    (correlate_events sC7).map (·.correlation_score) = [0, 3/10] ∧
    ((0 : ℚ) < 3/10) := by
  have hA : find_related_system_events sC7 iC7a = [evC7] := by decide
  have hB : find_related_system_events sC7 iC7b = [evC7] := by decide
  have hrA : find_related_processes sC7.tree iC7a.pid = [] := by decide
  have hrB : find_related_processes sC7.tree iC7b.pid = [] := by decide
  have hsA : calculate_correlation_score sC7 iC7a [evC7] = 0 := by
    unfold calculate_correlation_score per_event_score
    rw [hrA]
    norm_num [sC7, iC7a, evC7, temporal_window_ns, calculate_argument_match_score, max_def]
  have hsB : calculate_correlation_score sC7 iC7b [evC7] = 3/10 := by
    unfold calculate_correlation_score per_event_score
    rw [hrB]
    norm_num [sC7, iC7b, evC7, temporal_window_ns, calculate_argument_match_score, max_def]
  constructor
  · unfold correlate_events
    rw [show sC7.llm_interactions = [iC7a, iC7b] from rfl]
    simp [List.filterMap_cons, hA, hB, hsA, hsB]
  · norm_num

/-! ## Claim C8: a response with no pending request -/

/-- C8 counterexample: feeding `response(tid=7, ts=3000)` to a fresh
correlator creates no interaction and does not abort, but the resulting
state is *identical* to the initial state — nothing whatsoever is
recorded, so no `UnmatchedResponse` counter is incremented by 1 (the
code maintains no such counter). -/
theorem unmatched_response_no_counter :
    process_http_event (fun _ => []) sInit evResp7 = sInit ∧
    (process_http_event (fun _ => []) sInit evResp7).llm_interactions = [] := by
  constructor <;> rfl

/-- C8 (amended): for every response record whose tid has no pending
request, no `LLMInteraction` is created and the run is not aborted: the
event is silently ignored and the correlator state is completely
unchanged (the engine keeps no unmatched-response counter). -/
theorem unmatched_response_ignored (extractRefs : String → List String)
    (s : CorrState) (e : HttpEvent)
    (hresp : e.data.message_type = "response")
    (hnone : lookupPending s.pending_requests e.data.tid = none) :
    process_http_event extractRefs s e = s := by
  have h1 : (e.data.message_type == "request") = false := by rw [hresp]; rfl
  have h2 : (e.data.message_type == "response") = true := by rw [hresp]; rfl
  simp [process_http_event, h1, h2, hnone]

theorem unmatched_response_ignored_witness :
    process_http_event (fun _ => ["x"]) sInit evResp7 = sInit :=
  unmatched_response_ignored (fun _ => ["x"]) sInit evResp7 rfl rfl

/-! ## Claim C2: the dominant correlation type -/

lemma hscoreA3 :
    calculate_argument_match_score iC2.extracted_references (checkMatchArgs evA3) = 1 := by
  show calculate_argument_match_score ["/tmp/out.txt"] ["/tmp/out.txt"] = 1
  unfold calculate_argument_match_score
  rw [if_neg (by decide)]
  simp only [countMatches]
  rw [if_pos (by decide : strContains (joinArgs ["/tmp/out.txt"]) "/tmp/out.txt" = true)]
  norm_num

lemma hCA3 : check_argument_match iC2 evA3 = true := by
  unfold check_argument_match
  rw [if_neg (by decide), hscoreA3]
  exact decide_eq_true (by norm_num)

lemma hCT1 : check_argument_match iC2 evT1 = false := by
  unfold check_argument_match
  rw [if_neg (by decide)]
  have h0 : calculate_argument_match_score iC2.extracted_references (checkMatchArgs evT1) = 0 := by
    show calculate_argument_match_score ["/tmp/out.txt"] [] = 0
    rfl
  rw [h0]
  exact decide_eq_false (by norm_num)

lemma hCT2 : check_argument_match iC2 evT2 = false := by
  unfold check_argument_match
  rw [if_neg (by decide)]
  have h0 : calculate_argument_match_score iC2.extracted_references (checkMatchArgs evT2) = 0 := by
    show calculate_argument_match_score ["/tmp/out.txt"] [] = 0
    rfl
  rw [h0]
  exact decide_eq_false (by norm_num)

lemma hfrseC2 : find_related_system_events sC2 iC2 = [evT1, evT2, evA3] := by
  have hp1 : (in_time_window sC2 iC2 evT1 ||
      decide (evT1.pid ∈ find_related_processes sC2.tree iC2.pid) ||
      check_argument_match iC2 evT1) = true := by decide
  have hp2 : (in_time_window sC2 iC2 evT2 ||
      decide (evT2.pid ∈ find_related_processes sC2.tree iC2.pid) ||
      check_argument_match iC2 evT2) = true := by decide
  have hp3 : (in_time_window sC2 iC2 evA3 ||
      decide (evA3.pid ∈ find_related_processes sC2.tree iC2.pid) ||
      check_argument_match iC2 evA3) = true := by
    rw [hCA3]; decide
  unfold find_related_system_events
  simp only [show sC2.system_events = [evT1, evT2, evA3] from rfl,
    List.filter_cons, List.filter_nil]
  rw [if_pos hp1, if_pos hp2, if_pos hp3]
  decide

lemma hcntArgC2 : List.countP (check_argument_match iC2) [evT1, evT2, evA3] = 1 := by
  simp [List.countP_cons, hCT1, hCT2, hCA3]

lemma htypeC2 : determine_correlation_type sC2 iC2 [evT1, evT2, evA3] = "argument_matching" := by
  simp only [determine_correlation_type]
  rw [hcntArgC2]
  norm_num

/-- C2 counterexample: in `sC2` the temporal predicate holds for two
included events and the argument predicate for only one, yet the emitted
type is `argument_matching`, not the claim's `temporal_proximity`: the
code returns `argument_matching` whenever *any* included event has an
argument match, regardless of counts. -/
theorem correlation_type_counterexample :
    (correlate_events sC2).map (·.correlation_type) = ["argument_matching"] ∧
    List.countP (in_time_window sC2 iC2) (find_related_system_events sC2 iC2) = 2 ∧
    List.countP (check_argument_match iC2) (find_related_system_events sC2 iC2) = 1 ∧
    List.countP (fun e => decide (e.pid ∈ find_related_processes sC2.tree iC2.pid))
      (find_related_system_events sC2 iC2) = 0 ∧
    "argument_matching" ≠ "temporal_proximity" := by
  refine ⟨?_, ?_, ?_, ?_, by decide⟩
  · unfold correlate_events
    rw [show sC2.llm_interactions = [iC2] from rfl]
    simp [hfrseC2, htypeC2]
  · rw [hfrseC2]; decide
  · rw [hfrseC2]; exact hcntArgC2
  · rw [hfrseC2]; decide

/-- C2 (amended): the emitted type is `argument_matching` whenever at
least one included event satisfies the argument predicate (regardless of
how many events the other predicates matched); otherwise it is
`temporal_proximity` when strictly more included events satisfy the
temporal predicate than the lineage predicate; otherwise (including
ties) it is `process_lineage`. -/
theorem correlation_type_rule (s : CorrState) (c : CorrelatedEvent)
    (hc : c ∈ correlate_events s) :
    c.correlation_type =
      if 0 < List.countP (check_argument_match c.llm_interaction) c.system_actions then
        "argument_matching"
      else if List.countP
            (fun e => decide (e.pid ∈ find_related_processes s.tree c.llm_interaction.pid))
            c.system_actions <
          List.countP (in_time_window s c.llm_interaction) c.system_actions then
        "temporal_proximity"
      else "process_lineage" := by
  unfold correlate_events at hc
  rcases List.mem_filterMap.mp hc with ⟨i, _, hfi⟩
  by_cases h : (find_related_system_events s i).isEmpty
  · rw [if_pos h] at hfi
    exact absurd hfi (by simp)
  · rw [if_neg h] at hfi
    obtain rfl : _ = c := Option.some.inj hfi
    rfl

/-! ## Claim C3: the per-event score formula -/

lemma hfrseC3 : find_related_system_events sC3 iC3 = [evC3] := by decide

lemma hscoreC3 : calculate_correlation_score sC3 iC3 [evC3] = 9997/10000 := by
  unfold calculate_correlation_score
  rw [if_neg (by decide)]
  simp only [List.map_cons, List.map_nil, List.sum_cons, List.sum_nil,
    List.length_cons, List.length_nil]
  unfold per_event_score
  rw [show find_related_processes sC3.tree iC3.pid = [100] from by decide]
  have harg : calculate_argument_match_score iC3.extracted_references
      (extract_event_arguments evC3) = 1 := by
    show calculate_argument_match_score ["abc"] ["abc"] = 1
    unfold calculate_argument_match_score
    rw [if_neg (by decide)]
    simp only [countMatches]
    rw [if_pos (by decide : strContains (joinArgs ["abc"]) "abc" = true)]
    norm_num
  rw [harg]
  norm_num [sC3, iC3, evC3, temporal_window_ns, max_def]

/-- C3 counterexample: in `sC3` the single correlated event occurs 1000ns
*before* the response and matches via lineage; the code scores the
correlation `9997/10000` (absolute time distance decays the temporal
term, and the event's `comm` field feeds the argument term), while the
claim's formula gives `3/5` (signed offset clamps the temporal term at 1,
and the five-field `arguments` list is empty so its argument term is 0). -/
theorem per_event_score_counterexample :
    (correlate_events sC3).map (·.correlation_score) = [9997/10000] ∧
    claimPerEventScore sC3 iC3 evC3 = 3/5 ∧
    ((9997/10000 : ℚ) ≠ 3/5) := by
  refine ⟨?_, ?_, by norm_num⟩
  · unfold correlate_events
    rw [show sC3.llm_interactions = [iC3] from rfl]
    simp [hfrseC3, hscoreC3]
  · unfold claimPerEventScore
    rw [show find_related_processes sC3.tree iC3.pid = [100] from by decide]
    have h0 : calculate_argument_match_score iC3.extracted_references (checkMatchArgs evC3) = 0 := by
      show calculate_argument_match_score ["abc"] [] = 0
      rfl
    rw [h0]
    norm_num [sC3, iC3, evC3, temporal_window_ns, max_def, min_def]

/-- C3 (amended): each included event's per-event score is
`0.3·max(0, 1 − |eventTimestamp − responseTimestamp|/W) + 0.3·lineage +
0.4·matchScore(references, arguments ++ [comm])` — absolute time distance
(events before the response decay too, instead of clamping at 1), and the
argument list extended with the event's `comm` field; the correlation's
overall score is the arithmetic mean of the per-event scores over the
included events (which are never empty for an emitted correlation). -/
theorem correlation_score_formula (s : CorrState) (c : CorrelatedEvent)
    (hc : c ∈ correlate_events s) :
    c.correlation_score =
      (c.system_actions.map (fun e =>
        max 0 (1 - ((|e.timestamp - c.llm_interaction.response_timestamp| : Int) : ℚ) /
            (temporal_window_ns s : ℚ)) * (3/10) +
        (if e.pid ∈ find_related_processes s.tree c.llm_interaction.pid then (1 : ℚ) else 0) *
          (3/10) +
        calculate_argument_match_score c.llm_interaction.extracted_references
            (extract_event_arguments e) * (4/10))).sum /
        (c.system_actions.length : ℚ) ∧
    c.system_actions.isEmpty = false := by
  unfold correlate_events at hc
  rcases List.mem_filterMap.mp hc with ⟨i, _, hfi⟩
  by_cases h : (find_related_system_events s i).isEmpty
  · rw [if_pos h] at hfi
    exact absurd hfi (by simp)
  · rw [if_neg h] at hfi
    obtain rfl : _ = c := Option.some.inj hfi
    constructor
    · show calculate_correlation_score s i (find_related_system_events s i) = _
      unfold calculate_correlation_score
      rw [if_neg h]
      rfl
    · cases hb : (find_related_system_events s i).isEmpty with
      | false => rfl
      | true => exact absurd hb h

lemma cW_mem : cW ∈ correlate_events sC3w := by
  have hr : find_related_system_events sC3w iC7b = [evC7] := by decide
  unfold correlate_events
  rw [show sC3w.llm_interactions = [iC7b] from rfl]
  simp [hr, cW]

theorem correlation_score_formula_witness :
    cW.correlation_score =
      (cW.system_actions.map (fun e =>
        max 0 (1 - ((|e.timestamp - cW.llm_interaction.response_timestamp| : Int) : ℚ) /
            (temporal_window_ns sC3w : ℚ)) * (3/10) +
        (if e.pid ∈ find_related_processes sC3w.tree cW.llm_interaction.pid then (1 : ℚ) else 0) *
          (3/10) +
        calculate_argument_match_score cW.llm_interaction.extracted_references
            (extract_event_arguments e) * (4/10))).sum /
        (cW.system_actions.length : ℚ) ∧
    cW.system_actions.isEmpty = false :=
  correlation_score_formula sC3w cW cW_mem

theorem correlation_type_rule_witness :
    cW.correlation_type =
      if 0 < List.countP (check_argument_match cW.llm_interaction) cW.system_actions then
        "argument_matching"
      else if List.countP
            (fun e => decide (e.pid ∈ find_related_processes sC3w.tree cW.llm_interaction.pid))
            cW.system_actions <
          List.countP (in_time_window sC3w cW.llm_interaction) cW.system_actions then
        "temporal_proximity"
      else "process_lineage" :=
  correlation_type_rule sC3w cW cW_mem

/-! ## Claim C4: score bounds -/

lemma countMatches_nonneg (text : String) (args refs : List String) :
    0 ≤ countMatches text args refs := by
  induction refs with
  | nil => simp [countMatches]
  | cons r rs ih =>
      simp only [countMatches]
      have hterm : (0 : ℚ) ≤ if strContains text r then (1 : ℚ)
          else if args.any (fun a => strContains a r || strContains r a) then 1/2 else 0 := by
        split
        · norm_num
        · split <;> norm_num
      linarith

lemma countMatches_le_length (text : String) (args refs : List String) :
    countMatches text args refs ≤ (refs.length : ℚ) := by
  induction refs with
  | nil => simp [countMatches]
  | cons r rs ih =>
      simp only [countMatches, List.length_cons]
      have hterm : (if strContains text r then (1 : ℚ)
          else if args.any (fun a => strContains a r || strContains r a) then 1/2 else 0) ≤ 1 := by
        split
        · norm_num
        · split <;> norm_num
      push_cast
      linarith

lemma match_score_nonneg (refs args : List String) :
    0 ≤ calculate_argument_match_score refs args := by
  unfold calculate_argument_match_score
  split
  · norm_num
  · exact div_nonneg (countMatches_nonneg _ _ _) (by positivity)

lemma match_score_le_one (refs args : List String) :
    calculate_argument_match_score refs args ≤ 1 := by
  unfold calculate_argument_match_score
  split
  · norm_num
  · next hcond =>
    have hne : refs ≠ [] := by
      intro hnil
      exact hcond (by simp [hnil])
    have hlen : (0 : ℚ) < (refs.length : ℚ) := by
      have h : 0 < refs.length := List.length_pos.mpr hne
      exact_mod_cast h
    rw [div_le_one hlen]
    exact countMatches_le_length _ _ _

lemma per_event_score_bounds (s : CorrState) (i : LLMInteraction) (e : SEvent)
    (hw : 0 < s.temporal_window_ms) :
    0 ≤ per_event_score s i e ∧ per_event_score s i e ≤ 1 := by
  have hWi : (0 : Int) < temporal_window_ns s := by
    unfold temporal_window_ns
    exact mul_pos hw (by norm_num)
  have hW : (0 : ℚ) < ((temporal_window_ns s : Int) : ℚ) := by exact_mod_cast hWi
  have hd : (0 : ℚ) ≤ ((|e.timestamp - i.response_timestamp| : Int) : ℚ) := by
    exact_mod_cast abs_nonneg (e.timestamp - i.response_timestamp)
  have ht0 : (0 : ℚ) ≤ max 0 (1 - ((|e.timestamp - i.response_timestamp| : Int) : ℚ) /
      ((temporal_window_ns s : Int) : ℚ)) := le_max_left _ _
  have ht1 : max (0 : ℚ) (1 - ((|e.timestamp - i.response_timestamp| : Int) : ℚ) /
      ((temporal_window_ns s : Int) : ℚ)) ≤ 1 := by
    apply max_le
    · norm_num
    · have hq : (0 : ℚ) ≤ ((|e.timestamp - i.response_timestamp| : Int) : ℚ) /
          ((temporal_window_ns s : Int) : ℚ) := div_nonneg hd hW.le
      linarith
  have hp0 : (0 : ℚ) ≤ if e.pid ∈ find_related_processes s.tree i.pid then (1 : ℚ) else 0 := by
    split <;> norm_num
  have hp1 : (if e.pid ∈ find_related_processes s.tree i.pid then (1 : ℚ) else 0) ≤ 1 := by
    split <;> norm_num
  have ha0 := match_score_nonneg i.extracted_references (extract_event_arguments e)
  have ha1 := match_score_le_one i.extracted_references (extract_event_arguments e)
  unfold per_event_score
  constructor
  · linarith
  · linarith

lemma mean_bounds (l : List ℚ) (h0 : ∀ x ∈ l, 0 ≤ x) (h1 : ∀ x ∈ l, x ≤ 1)
    (hne : l ≠ []) : 0 ≤ l.sum / (l.length : ℚ) ∧ l.sum / (l.length : ℚ) ≤ 1 := by
  have hlen : (0 : ℚ) < (l.length : ℚ) := by
    have h : 0 < l.length := List.length_pos.mpr hne
    exact_mod_cast h
  have hs0 : 0 ≤ l.sum := List.sum_nonneg h0
  have hs1 : l.sum ≤ (l.length : ℚ) := by
    calc l.sum ≤ l.length • (1 : ℚ) := List.sum_le_card_nsmul l 1 h1
    _ = (l.length : ℚ) := by rw [nsmul_eq_mul, mul_one]
  exact ⟨div_nonneg hs0 hlen.le, (div_le_one hlen).mpr hs1⟩

/-- C4 (amended): the argument match score always lies in `[0, 1]`, and
for every configuration with a *positive* temporal window every emitted
correlation score lies in `[0, 1]`.  The positivity restriction is
forced: the code never validates the window, and with a negative window
the temporal term can exceed 1 and so can the emitted score. -/
theorem score_in_unit_interval :
    (∀ refs args : List String, 0 ≤ calculate_argument_match_score refs args ∧
      calculate_argument_match_score refs args ≤ 1) ∧
    (∀ s : CorrState, 0 < s.temporal_window_ms →
      ∀ c ∈ correlate_events s, 0 ≤ c.correlation_score ∧ c.correlation_score ≤ 1) := by
  refine ⟨fun refs args => ⟨match_score_nonneg refs args, match_score_le_one refs args⟩, ?_⟩
  intro s hw c hc
  unfold correlate_events at hc
  rcases List.mem_filterMap.mp hc with ⟨i, _, hfi⟩
  by_cases h : (find_related_system_events s i).isEmpty
  · rw [if_pos h] at hfi
    exact absurd hfi (by simp)
  · rw [if_neg h] at hfi
    obtain rfl : _ = c := Option.some.inj hfi
    show 0 ≤ calculate_correlation_score s i (find_related_system_events s i) ∧
      calculate_correlation_score s i (find_related_system_events s i) ≤ 1
    unfold calculate_correlation_score
    rw [if_neg h]
    have hne : find_related_system_events s i ≠ [] := by
      intro hnil
      exact h (by simp [hnil])
    have hmap0 : ∀ x ∈ (find_related_system_events s i).map (per_event_score s i), 0 ≤ x := by
      intro x hx
      rcases List.mem_map.mp hx with ⟨e, _, rfl⟩
      exact (per_event_score_bounds s i e hw).1
    have hmap1 : ∀ x ∈ (find_related_system_events s i).map (per_event_score s i), x ≤ 1 := by
      intro x hx
      rcases List.mem_map.mp hx with ⟨e, _, rfl⟩
      exact (per_event_score_bounds s i e hw).2
    have hnem : (find_related_system_events s i).map (per_event_score s i) ≠ [] := by
      simpa using hne
    have hb := mean_bounds _ hmap0 hmap1 hnem
    rw [List.length_map] at hb
    exact hb

/-- C4 counterexample: the constructor accepts any window and the code
never rejects a non-positive one; with `temporal_window_ms = -1` a
lineage-matched event 4ms after the response gets temporal score 5 and
the emitted correlation score is `9/5 > 1`, so the claim fails for this
configuration. -/
theorem score_exceeds_one_counterexample :
    sC4.temporal_window_ms = -1 ∧
    (correlate_events sC4).map (·.correlation_score) = [9/5] ∧ ((1 : ℚ) < 9/5) := by
  refine ⟨rfl, ?_, by norm_num⟩
  have hfr : find_related_system_events sC4 iC4 = [evC4] := by decide
  have hs : calculate_correlation_score sC4 iC4 [evC4] = 9/5 := by
    unfold calculate_correlation_score
    rw [if_neg (by decide)]
    simp only [List.map_cons, List.map_nil, List.sum_cons, List.sum_nil,
      List.length_cons, List.length_nil]
    unfold per_event_score
    rw [show find_related_processes sC4.tree iC4.pid = [100] from by decide]
    have h0 : calculate_argument_match_score iC4.extracted_references
        (extract_event_arguments evC4) = 0 := rfl
    rw [h0]
    norm_num [sC4, iC4, evC4, temporal_window_ns, max_def]
  unfold correlate_events
  rw [show sC4.llm_interactions = [iC4] from rfl]
  simp [hfr, hs]

theorem score_in_unit_interval_witness :
    (0 ≤ calculate_argument_match_score ["ab"] ["b"] ∧
      calculate_argument_match_score ["ab"] ["b"] ≤ 1) ∧
    (0 ≤ cW.correlation_score ∧ cW.correlation_score ≤ 1) :=
  ⟨score_in_unit_interval.1 ["ab"] ["b"],
   score_in_unit_interval.2 sC3w (by decide) cW cW_mem⟩
